import Mathlib

/-!
Verification of the interview-agent repository's transcript aggregator,
cleanup sequencer, recording coordinator and transcript persistence,
modelled as a shallow embedding of `src/transcription_handler.py`,
`src/agent.py` and `src/cloud_recording_manager.py`.
-/

namespace Interview

/-- One stored transcript entry, mirroring the dict built in
`TranscriptionHandler.on_transcript` (transcription_handler.py lines 54-58):
`{"timestamp": ..., "speaker": ..., "text": ...}`. -/
structure Entry where
  timestamp : Nat
  speaker : String
  text : String
deriving DecidableEq, Repr

/-- Python's `not text.strip()` emptiness test: true exactly when every
character of the text is whitespace (so stripping leaves nothing). -/
def isBlank (s : String) : Bool :=
  s.data.all Char.isWhitespace

/-- The append-or-coalesce core of `TranscriptionHandler.on_transcript`
(transcription_handler.py lines 40-59), as the spec's
`record(speaker, text, is_final)` operation: drop non-final events, drop
blank text (`if not text.strip()`, i.e. the text is all whitespace),
otherwise coalesce into the last entry when its speaker matches
(`self.transcript[-1]['text'] += " " + text`) or append a fresh entry. -/
def record (speaker text : String) (is_final : Bool) (now : Nat)
    (t : List Entry) : List Entry :=
  if is_final = false then t
  else if isBlank text then t
  else
    match t.getLast? with
    | some last =>
        if last.speaker = speaker then
          t.dropLast ++ [{ last with text := last.text ++ " " ++ text }]
        else t ++ [⟨now, speaker, text⟩]
    | none => t ++ [⟨now, speaker, text⟩]

/-- A LiveKit participant as probed by `event.participant.identity`:
the `identity` attribute may be absent (access then raises). -/
structure Participant where
  identity : Option String
deriving DecidableEq, Repr

/-- A transcription event as duck-typed in `on_transcript`: each probed
attribute (`participant`, `text`, `is_final`) may be absent. -/
structure Event where
  participant : Option Participant
  text : Option String
  is_final : Option Bool
deriving DecidableEq, Repr

/-- The `try`-block body of `on_transcript` (transcription_handler.py lines
39-61): `getattr(event, 'is_final', False)` guard, speaker extraction that
raises (`Except.error`) when `participant` exists without `identity`,
text defaulting to `""`, then the `record` logic. -/
def on_transcript_body (ev : Event) (now : Nat) (t : List Entry) :
    Except Unit (List Entry) :=
  if ev.is_final.getD false = false then .ok t
  else
    match ev.participant with
    | some p =>
        match p.identity with
        | some sp => .ok (record sp (ev.text.getD "") true now t)
        | none => .error ()
    | none => .ok (record "unknown" (ev.text.getD "") true now t)

/-- `on_transcript` with its `try/except` wrapper (lines 38 and 63-64): any
exception from the body is caught and logged, leaving the transcript as it
was. -/
def on_transcript (ev : Event) (now : Nat) (t : List Entry) :
    Except Unit (List Entry) :=
  match on_transcript_body ev now t with
  | .ok r => .ok r
  | .error _ => .ok t

/-- An event `on_transcript` drops (or swallows an exception for): not final,
blank-or-missing text, or a participant object lacking `identity`. -/
def malformedB (ev : Event) : Bool :=
  ev.is_final.getD false = false ||
  (match ev.participant with
   | some p => p.identity.isNone
   | none => false) ||
  isBlank (ev.text.getD "")

/-- Whether an `Except` result is a normal return rather than an exception. -/
def isOkE {ε α : Type} : Except ε α → Bool
  | .ok _ => true
  | .error _ => false

/-- Helper: `record` with blank text leaves the transcript untouched. -/
lemma record_blank_eq (sp tx : String) (now : Nat) (t : List Entry)
    (h : isBlank tx = true) : record sp tx true now t = t := by
  simp [record, h]

/-- Helper: `record` of a non-final event leaves the transcript untouched. -/
lemma record_nonfinal_eq (sp tx : String) (now : Nat) (t : List Entry) :
    record sp tx false now t = t := by
  simp [record]

/-- C3: `on_transcript` never raises — for every event, including those
missing `participant`, `text` or `is_final`, it returns normally; malformed
events are dropped, leaving the transcript unchanged. -/
theorem on_transcript_never_raises (ev : Event) (now : Nat) (t : List Entry) :
    isOkE (on_transcript ev now t) = true ∧
    (malformedB ev = true → on_transcript ev now t = .ok t) := by
  constructor
  · unfold on_transcript on_transcript_body
    split <;> simp_all [isOkE]
  · intro hm
    unfold on_transcript on_transcript_body
    by_cases hf : ev.is_final.getD false = false
    · simp [hf]
    · simp only [malformedB, hf, Bool.false_or, Bool.or_eq_true,
        decide_eq_true_eq] at hm
      cases hp : ev.participant with
      | none =>
        simp only [hp] at hm
        rcases hm with hm | hm
        · simp at hm
        · simp [hf, record_blank_eq _ _ _ _ hm]
      | some p =>
        cases hi : p.identity with
        | none => simp [hf, hi]
        | some sp =>
          simp only [hp, hi, Option.isNone_some] at hm
          rcases hm with hm | hm
          · simp at hm
          · simp [hf, hi, record_blank_eq _ _ _ _ hm]

/-- C3 witness: a concrete malformed event (participant without identity)
is swallowed and leaves a concrete transcript unchanged. -/
theorem on_transcript_never_raises_spot :
    isOkE (on_transcript ⟨some ⟨none⟩, some "boom", some true⟩ 3
        [⟨0, "alice", "hi"⟩]) = true ∧
    on_transcript ⟨some ⟨none⟩, some "boom", some true⟩ 3 [⟨0, "alice", "hi"⟩] =
      .ok [⟨0, "alice", "hi"⟩] :=
  ⟨(on_transcript_never_raises ⟨some ⟨none⟩, some "boom", some true⟩ 3
      [⟨0, "alice", "hi"⟩]).1,
   (on_transcript_never_raises ⟨some ⟨none⟩, some "boom", some true⟩ 3
      [⟨0, "alice", "hi"⟩]).2 (by decide)⟩

/-- C4: non-final events and blank-text events never change the transcript:
no entry is added and no stored entry's speaker, text or timestamp moves. -/
theorem record_ignores_nonfinal_and_blank (sp tx : String) (now : Nat)
    (t : List Entry) :
    record sp tx false now t = t ∧
    (isBlank tx = true → record sp tx true now t = t) :=
  ⟨record_nonfinal_eq sp tx now t, fun h => record_blank_eq sp tx now t h⟩

/-- C4 witness: at a concrete transcript, a non-final event and a
whitespace-only final event both leave the snapshot identical. -/
theorem record_ignores_nonfinal_and_blank_spot :
    record "bob" "ignored" false 9 [⟨0, "alice", "hi"⟩] = [⟨0, "alice", "hi"⟩] ∧
    record "bob" "   " true 9 [⟨0, "alice", "hi"⟩] = [⟨0, "alice", "hi"⟩] :=
  ⟨(record_ignores_nonfinal_and_blank "bob" "ignored" 9 [⟨0, "alice", "hi"⟩]).1,
   (record_ignores_nonfinal_and_blank "bob" "   " 9 [⟨0, "alice", "hi"⟩]).2
     (by decide)⟩

/-- Projection of the stored transcript to what the coalescing claim talks
about: the (speaker, text) of each entry, in order. -/
def projT (t : List Entry) : List (String × String) :=
  t.map fun e => (e.speaker, e.text)

/-- Drive a sequence of final `record` calls, one per (speaker, text) pair,
with a ticking clock for the entry timestamps. -/
def transcriptOfAux : Nat → List Entry → List (String × String) → List Entry
  | _, t, [] => t
  | now, t, c :: cs => transcriptOfAux (now + 1) (record c.1 c.2 true now t) cs

/-- The transcript built from an empty handler by a sequence of final
`record(speaker, text, true)` calls. -/
def transcriptOf (calls : List (String × String)) : List Entry :=
  transcriptOfAux 0 [] calls

/-- Modelled from the spec's words: the maximal runs of consecutive
same-speaker calls, each run keeping its speaker and the list of its texts
in call order. -/
def speakerRuns : List (String × String) → List (String × List String)
  | [] => []
  | (sp, tx) :: rest =>
    match speakerRuns rest with
    | [] => [(sp, [tx])]
    | (s, ts) :: rs =>
        if sp = s then (sp, tx :: ts) :: rs else (sp, [tx]) :: (s, ts) :: rs

/-- Modelled from the spec's words: texts joined by a single space. -/
def joinSpace : List String → String
  | [] => ""
  | [tx] => tx
  | tx :: tx2 :: ts => tx ++ " " ++ joinSpace (tx2 :: ts)

/-- Modelled from the spec's words: one (speaker, space-joined text) pair per
maximal same-speaker run, in call order. -/
def runsJoined (calls : List (String × String)) : List (String × String) :=
  (speakerRuns calls).map fun r => (r.1, joinSpace r.2)

/-- The effect of one non-dropped `record` call on the projected transcript:
merge into the last pair when the speaker matches, else append. -/
def recStep (A : List (String × String)) (sp tx : String) :
    List (String × String) :=
  match A.getLast? with
  | some l => if l.1 = sp then A.dropLast ++ [(l.1, l.2 ++ " " ++ tx)]
              else A ++ [(sp, tx)]
  | none => A ++ [(sp, tx)]

/-- Concatenation of a projected transcript with a run summary, merging the
single boundary pair when the speakers agree. -/
def glue (A B : List (String × String)) : List (String × String) :=
  match A.getLast?, B with
  | some l, b :: B2 =>
      if l.1 = b.1 then A.dropLast ++ (l.1, l.2 ++ " " ++ b.2) :: B2
      else A ++ B
  | _, _ => A ++ B

/-- Prepending one call to a run summary: extend the first run when its
speaker matches, else open a new run. -/
def consRun (p : String × String) : List (String × String) →
    List (String × String)
  | [] => [p]
  | q :: rs => if p.1 = q.1 then (p.1, p.2 ++ " " ++ q.2) :: rs
               else p :: q :: rs

lemma glue_nil_left (B : List (String × String)) : glue [] B = B := by
  cases B <;> simp [glue]

lemma glue_nil_right (A : List (String × String)) : glue A [] = A := by
  cases h : A.getLast? <;> simp [glue, h]

/-- A non-dropped `record` call acts on the projection as `recStep`. -/
lemma projT_record (sp tx : String) (now : Nat) (t : List Entry)
    (h : isBlank tx = false) :
    projT (record sp tx true now t) = recStep (projT t) sp tx := by
  rcases t.eq_nil_or_concat with rfl | ⟨t1, e, rfl⟩
  · simp [record, h, recStep, projT]
  · simp only [List.concat_eq_append] at *
    by_cases hsp : e.speaker = sp
    · simp [record, h, recStep, projT, List.getLast?_concat,
        List.dropLast_concat, List.map_append, hsp]
    · simp [record, h, recStep, projT, List.getLast?_concat,
        List.dropLast_concat, List.map_append, hsp]

lemma recStep_nil (sp tx : String) : recStep [] sp tx = [(sp, tx)] := rfl

lemma recStep_concat (A1 : List (String × String)) (l : String × String)
    (sp tx : String) :
    recStep (A1 ++ [l]) sp tx =
      if l.1 = sp then A1 ++ [(l.1, l.2 ++ " " ++ tx)]
      else (A1 ++ [l]) ++ [(sp, tx)] := by
  simp only [recStep, List.getLast?_concat, List.dropLast_concat]

lemma glue_concat (A1 : List (String × String)) (l b : String × String)
    (B2 : List (String × String)) :
    glue (A1 ++ [l]) (b :: B2) =
      if l.1 = b.1 then A1 ++ (l.1, l.2 ++ " " ++ b.2) :: B2
      else (A1 ++ [l]) ++ b :: B2 := by
  simp only [glue, List.getLast?_concat, List.dropLast_concat]

/-- Key commutation: folding one more call into the transcript matches
prepending that call to the pending run summary. -/
lemma glue_recStep (A : List (String × String)) (sp tx : String)
    (B : List (String × String)) :
    glue (recStep A sp tx) B = glue A (consRun (sp, tx) B) := by
  rcases A.eq_nil_or_concat with rfl | ⟨A1, l, rfl⟩
  · rw [recStep_nil, glue_nil_left]
    cases B with
    | nil => rw [glue_nil_right]; rfl
    | cons b B2 =>
      rw [show ([(sp, tx)] : List (String × String)) = [] ++ [(sp, tx)]
          from rfl, glue_concat]
      by_cases hb : sp = b.1
      · simp [consRun, hb]
      · simp [consRun, hb]
  · simp only [List.concat_eq_append]
    rw [recStep_concat]
    by_cases hl : l.1 = sp
    · rw [if_pos hl]
      cases B with
      | nil =>
        rw [glue_nil_right, show consRun (sp, tx) [] = [(sp, tx)] from rfl,
          glue_concat]
        simp [hl]
      | cons b B2 =>
        rw [glue_concat]
        by_cases hb : l.1 = b.1
        · have hsb : sp = b.1 := hl ▸ hb
          have hbs : b.1 = sp := by rw [← hb, hl]
          rw [show consRun (sp, tx) (b :: B2) =
              (sp, tx ++ " " ++ b.2) :: B2 by simp [consRun, hsb],
            glue_concat]
          simp [hb, hl, hbs, String.append_assoc]
        · have hsb : ¬ sp = b.1 := fun hh => hb (hl ▸ hh)
          rw [show consRun (sp, tx) (b :: B2) = (sp, tx) :: b :: B2 by
              simp [consRun, hsb],
            glue_concat]
          simp [hb, hl, hsb]
    · rw [if_neg hl]
      cases B with
      | nil =>
        rw [glue_nil_right, show consRun (sp, tx) [] = [(sp, tx)] from rfl,
          glue_concat]
        simp [hl]
      | cons b B2 =>
        rw [glue_concat]
        by_cases hb : sp = b.1
        · have hlb : ¬ l.1 = b.1 := fun hh => hl (by rw [hh, ← hb])
          rw [show consRun (sp, tx) (b :: B2) =
              (sp, tx ++ " " ++ b.2) :: B2 by simp [consRun, hb],
            glue_concat]
          simp [hb, hl, hlb]
        · rw [show consRun (sp, tx) (b :: B2) = (sp, tx) :: b :: B2 by
              simp [consRun, hb],
            glue_concat]
          simp [hb, hl]

/-- The head run produced by `speakerRuns` always carries at least one text. -/
lemma speakerRuns_head_ne_nil (cs : List (String × String)) (s : String)
    (ts : List String) (rs : List (String × List String))
    (h : speakerRuns cs = (s, ts) :: rs) : ts ≠ [] := by
  intro hn
  subst hn
  cases cs with
  | nil => simp [speakerRuns] at h
  | cons c cs2 =>
    rcases c with ⟨sp, tx⟩
    simp only [speakerRuns] at h
    cases h2 : speakerRuns cs2 with
    | nil => rw [h2] at h; simp at h
    | cons q rs2 =>
      rcases q with ⟨s2, ts2⟩
      rw [h2] at h
      by_cases hs : sp = s2
      · simp [hs] at h
      · simp [hs] at h

lemma joinSpace_cons (tx : String) (ts : List String) (h : ts ≠ []) :
    joinSpace (tx :: ts) = tx ++ " " ++ joinSpace ts := by
  cases ts with
  | nil => exact absurd rfl h
  | cons t2 ts2 => simp [joinSpace]

/-- Unfolding `runsJoined` across one leading call. -/
lemma runsJoined_cons (sp tx : String) (cs : List (String × String)) :
    runsJoined ((sp, tx) :: cs) = consRun (sp, tx) (runsJoined cs) := by
  unfold runsJoined
  simp only [speakerRuns]
  cases h : speakerRuns cs with
  | nil => simp [consRun, joinSpace]
  | cons q rs =>
    rcases q with ⟨s, ts⟩
    have hts : ts ≠ [] := speakerRuns_head_ne_nil cs s ts rs h
    by_cases hs : sp = s
    · simp [hs, consRun, joinSpace_cons tx ts hts]
    · simp [hs, consRun, joinSpace]

/-- Folding calls from state `t` yields `projT t` glued with the runs of the
remaining calls. -/
lemma transcriptOfAux_runs (calls : List (String × String)) :
    ∀ (now : Nat) (t : List Entry),
    (∀ c ∈ calls, isBlank c.2 = false) →
    projT (transcriptOfAux now t calls) = glue (projT t) (runsJoined calls) := by
  induction calls with
  | nil =>
    intro now t _
    simp [transcriptOfAux, runsJoined, speakerRuns, glue_nil_right]
  | cons c cs ih =>
    intro now t h
    rcases c with ⟨sp, tx⟩
    have htx : isBlank tx = false := h (sp, tx) (List.mem_cons_self _ _)
    have hcs : ∀ c ∈ cs, isBlank c.2 = false := fun c hc =>
      h c (List.mem_cons_of_mem _ hc)
    calc projT (transcriptOfAux now t ((sp, tx) :: cs))
        = projT (transcriptOfAux (now + 1) (record sp tx true now t) cs) := rfl
      _ = glue (projT (record sp tx true now t)) (runsJoined cs) :=
          ih (now + 1) (record sp tx true now t) hcs
      _ = glue (recStep (projT t) sp tx) (runsJoined cs) := by
          rw [projT_record sp tx now t htx]
      _ = glue (projT t) (consRun (sp, tx) (runsJoined cs)) :=
          glue_recStep (projT t) sp tx (runsJoined cs)
      _ = glue (projT t) (runsJoined ((sp, tx) :: cs)) := by
          rw [runsJoined_cons]

/-- C1: for every sequence of final, non-blank `record` calls, the snapshot
has exactly one entry per maximal run of consecutive same-speaker calls, in
call order, each entry's text being the run's texts joined by single spaces
(so the coalescing check only ever looks at the immediately preceding
stored entry). -/
theorem transcript_coalesces_runs (calls : List (String × String))
    (h : ∀ c ∈ calls, isBlank c.2 = false) :
    projT (transcriptOf calls) = runsJoined calls := by
  have := transcriptOfAux_runs calls 0 [] h
  simpa [transcriptOf, projT, glue_nil_left] using this

/-- C1 witness: a concrete call sequence with an interleaved speaker change
produces one entry per run, with space-joined texts — in particular the
third same-speaker call is not merged into the first run. -/
theorem transcript_coalesces_runs_spot :
    (∀ c ∈ [("alice", "hi"), ("alice", "there"), ("bob", "ok"),
        ("alice", "back")], isBlank c.2 = false) ∧
    projT (transcriptOf [("alice", "hi"), ("alice", "there"), ("bob", "ok"),
        ("alice", "back")]) =
      runsJoined [("alice", "hi"), ("alice", "there"), ("bob", "ok"),
        ("alice", "back")] :=
  ⟨by decide,
   transcript_coalesces_runs [("alice", "hi"), ("alice", "there"),
     ("bob", "ok"), ("alice", "back")] (by decide)⟩

/-- The `InterviewAgent` state touched by `handle_cleanup` (agent.py lines
220-300): the single-use `is_cleaning_up` guard, whether `self.recorder` and
`self.transcription` are set, and one counter per teardown step so that
"the body ran exactly once" is observable. -/
structure AgentState where
  hasRecorder : Bool
  hasTranscription : Bool
  is_cleaning_up : Bool
  stopRecordingCalls : Nat
  notifyCalls : Nat
  saveTranscriptCalls : Nat
  disconnectCalls : Nat
deriving DecidableEq, Repr

/-- `InterviewAgent.handle_cleanup` (agent.py lines 239-300): return at once
when the guard is set, otherwise set it and run the teardown body — stop the
recording when a recorder exists, publish the INTERVIEW_ENDED notification,
save the transcript when a transcription handler exists, disconnect. -/
def handle_cleanup (s : AgentState) : AgentState :=
  if s.is_cleaning_up then s
  else
    { s with
      is_cleaning_up := true
      stopRecordingCalls :=
        s.stopRecordingCalls + (if s.hasRecorder then 1 else 0)
      notifyCalls := s.notifyCalls + 1
      saveTranscriptCalls :=
        s.saveTranscriptCalls + (if s.hasTranscription then 1 else 0)
      disconnectCalls := s.disconnectCalls + 1 }

/-- Helper: a state with the guard set is a fixed point of `handle_cleanup`. -/
lemma handle_cleanup_fixed (s : AgentState) (h : s.is_cleaning_up = true) :
    handle_cleanup s = s := by
  simp [handle_cleanup, h]

/-- C2: invoking `handle_cleanup` any number of times on a fresh agent runs
the teardown body exactly once — the first call sets the guard and bumps
every step counter once, and every iterate beyond the first changes
nothing; moreover any guarded state is left completely unchanged. -/
theorem handle_cleanup_exactly_once (n : Nat) (s : AgentState)
    (h : s.is_cleaning_up = false) :
    handle_cleanup^[n + 1] s = handle_cleanup s ∧
    (handle_cleanup s).is_cleaning_up = true ∧
    (handle_cleanup s).stopRecordingCalls =
      s.stopRecordingCalls + (if s.hasRecorder then 1 else 0) ∧
    (handle_cleanup s).notifyCalls = s.notifyCalls + 1 ∧
    (handle_cleanup s).saveTranscriptCalls =
      s.saveTranscriptCalls + (if s.hasTranscription then 1 else 0) ∧
    (handle_cleanup s).disconnectCalls = s.disconnectCalls + 1 ∧
    (∀ s2 : AgentState, s2.is_cleaning_up = true → handle_cleanup s2 = s2) := by
  have hset : (handle_cleanup s).is_cleaning_up = true := by
    simp [handle_cleanup, h]
  refine ⟨?_, hset, ?_, ?_, ?_, ?_, fun s2 h2 => handle_cleanup_fixed s2 h2⟩
  · rw [Function.iterate_succ_apply]
    exact Function.iterate_fixed (handle_cleanup_fixed _ hset) n
  · simp [handle_cleanup, h]
  · simp [handle_cleanup, h]
  · simp [handle_cleanup, h]
  · simp [handle_cleanup, h]

/-- C2 witness: three invocations on a concrete fresh agent equal one, and
that one bumps each teardown counter exactly once. -/
theorem handle_cleanup_exactly_once_spot :
    handle_cleanup^[3] ⟨true, true, false, 0, 0, 0, 0⟩ =
      handle_cleanup ⟨true, true, false, 0, 0, 0, 0⟩ ∧
    handle_cleanup ⟨true, true, false, 0, 0, 0, 0⟩ =
      ⟨true, true, true, 1, 1, 1, 1⟩ :=
  ⟨(handle_cleanup_exactly_once 2 ⟨true, true, false, 0, 0, 0, 0⟩ rfl).1,
   by decide⟩

/-- The terminal egress report returned by the recording backend: a status
plus the download URLs of any file results already produced. -/
structure EgressInfo where
  status : String
  file_results : List (Option String)
deriving DecidableEq, Repr

/-- The `CloudRecordingManager` state (cloud_recording_manager.py lines
15-26): the stored egress id, candidate id, and whether the LiveKit API
client the constructor opened has been closed (`aclose`). -/
structure RecState where
  egress_id : Option String
  candidate_id : Option String
  apiClosed : Bool
deriving DecidableEq, Repr

/-- `CloudRecordingManager.stop_recording` (cloud_recording_manager.py lines
86-126): with no stored egress id, warn and return `None` at once; otherwise
ask the backend to stop — on success return the egress report, on exception
return `None` — and in both of those cases close the API client in the
`finally` block. The backend's behaviour is an input. -/
def stop_recording (s : RecState) (backend : Except String EgressInfo) :
    RecState × Option EgressInfo :=
  match s.egress_id with
  | none => (s, none)
  | some _ =>
    match backend with
    | .ok egress => ({ s with apiClosed := true }, some egress)
    | .error _ => ({ s with apiClosed := true }, none)

/-- C6: `stop_recording` before any recording was started returns `None`
without raising and leaves the manager's state exactly as it was. -/
theorem stop_recording_before_start_noop (s : RecState)
    (backend : Except String EgressInfo) (h : s.egress_id = none) :
    stop_recording s backend = (s, none) := by
  simp [stop_recording, h]

/-- C6 witness: a concrete never-started manager is untouched by `stop`. -/
theorem stop_recording_before_start_noop_spot :
    stop_recording ⟨none, none, false⟩
        (Except.ok ⟨"EGRESS_COMPLETE", [some "url"]⟩) =
      (⟨none, none, false⟩, none) :=
  stop_recording_before_start_noop ⟨none, none, false⟩
    (Except.ok ⟨"EGRESS_COMPLETE", [some "url"]⟩) rfl

/-- C7 counterexample: on the no-active-recording path the early return
happens before the `try/finally`, so the API client the constructor opened
is NOT closed — refuting "on every execution path the client is closed". -/
theorem stop_recording_idle_client_not_closed :
    ¬ ((stop_recording ⟨none, none, false⟩
        (Except.ok ⟨"EGRESS_COMPLETE", []⟩)).1.apiClosed = true) := by
  decide

/-- C7 (amended): whenever a recording is active (an egress id is stored),
`stop_recording` closes the API client before returning, both when the
backend stop succeeds and when it raises; only the idle early-return path
skips the close. -/
theorem stop_recording_active_closes_client (s : RecState) (e : String)
    (backend : Except String EgressInfo) (h : s.egress_id = some e) :
    ((stop_recording s backend).1).apiClosed = true := by
  cases backend <;> simp [stop_recording, h]

/-- C7 witness: a concrete active manager has its client closed on both the
success and the exception path of the backend stop. -/
theorem stop_recording_active_closes_client_spot :
    ((stop_recording ⟨some "EG_1", some "cand", false⟩
        (Except.ok ⟨"EGRESS_COMPLETE", []⟩)).1).apiClosed = true ∧
    ((stop_recording ⟨some "EG_1", some "cand", false⟩
        (Except.error "backend down")).1).apiClosed = true :=
  ⟨stop_recording_active_closes_client ⟨some "EG_1", some "cand", false⟩
     "EG_1" (Except.ok ⟨"EGRESS_COMPLETE", []⟩) rfl,
   stop_recording_active_closes_client ⟨some "EG_1", some "cand", false⟩
     "EG_1" (Except.error "backend down") rfl⟩

/-- The in-conversation warning pushed to the assistant history when the
recording cannot start (agent.py lines 405-408). -/
def warnMessage : String :=
  "Warning: Session recording could not be started. Please check server configuration."

/-- `CloudRecordingManager.start_recording`'s error handling
(cloud_recording_manager.py lines 76-84): the except block logs (quota
errors specially) and then re-raises, so the backend outcome passes
through unchanged. -/
def cloudStartRecording (backend : Except String EgressInfo) :
    Except String EgressInfo :=
  match backend with
  | .ok egress => .ok egress
  | .error e => .error e

/-- The recording-start step of `InterviewAgent.start_interview` (agent.py
lines 396-408): try to start the cloud recording; on any exception, log and
append the warning to the session history instead of propagating. Returns
the session history and the recording handle, if any. -/
def startRecordingStep (backend : Except String EgressInfo)
    (history : List String) : Except String (List String × Option EgressInfo) :=
  match cloudStartRecording backend with
  | .ok egress => .ok (history, some egress)
  | .error _ => .ok (history ++ [warnMessage], none)

/-- C8: a backend failure on `start_recording` (quota or otherwise) never
propagates past start_interview's recording-start step: the step returns
normally for every backend outcome, surfaces the warning as an
in-conversation assistant message on failure, and cleanup on a live agent
still persists the transcript exactly once. -/
theorem recording_failure_contained (backend : Except String EgressInfo)
    (history : List String) (s : AgentState) (msg : String)
    (hb : backend = .error msg) (hs : s.is_cleaning_up = false)
    (ht : s.hasTranscription = true) :
    startRecordingStep backend history = .ok (history ++ [warnMessage], none) ∧
    (∀ b2 : Except String EgressInfo,
      isOkE (startRecordingStep b2 history) = true) ∧
    (handle_cleanup s).saveTranscriptCalls = s.saveTranscriptCalls + 1 := by
  refine ⟨?_, ?_, ?_⟩
  · simp [startRecordingStep, cloudStartRecording, hb]
  · intro b2; cases b2 <;> simp [startRecordingStep, cloudStartRecording, isOkE]
  · simp [handle_cleanup, hs, ht]

/-- C8 witness: a concrete quota error is contained — warning appended,
step returns normally, and a concrete agent's cleanup still saves the
transcript. -/
theorem recording_failure_contained_spot :
    startRecordingStep (Except.error "resource_exhausted: limit exceeded") [] =
      .ok ([warnMessage], none) ∧
    (∀ b2 : Except String EgressInfo, isOkE (startRecordingStep b2 []) = true) ∧
    (handle_cleanup ⟨false, true, false, 0, 0, 0, 0⟩).saveTranscriptCalls =
      0 + 1 :=
  ⟨by
    have h := recording_failure_contained
      (Except.error "resource_exhausted: limit exceeded") []
      ⟨false, true, false, 0, 0, 0, 0⟩ "resource_exhausted: limit exceeded"
      rfl rfl rfl
    simpa using h.1,
   (recording_failure_contained
      (Except.error "resource_exhausted: limit exceeded") []
      ⟨false, true, false, 0, 0, 0, 0⟩ "resource_exhausted: limit exceeded"
      rfl rfl rfl).2.1,
   (recording_failure_contained
      (Except.error "resource_exhausted: limit exceeded") []
      ⟨false, true, false, 0, 0, 0, 0⟩ "resource_exhausted: limit exceeded"
      rfl rfl rfl).2.2⟩

/-- The S3 object key built by
`TranscriptionHandler.save_formatted_transcript` (transcription_handler.py
lines 130-131): `f"{egress_id}_transcript.txt"` when an egress id is given,
plain `"transcript.txt"` otherwise, under `ai_interview/{interview_id}/`. -/
def transcriptKey (interview_id : String) (egress_id : Option String) :
    String :=
  "ai_interview/" ++ interview_id ++ "/" ++
    (match egress_id with
     | some e => e ++ "_transcript.txt"
     | none => "transcript.txt")

/-- C9 counterexample: with no egress id the key is
`ai_interview/<room>/transcript.txt`, which is NOT of the claimed form
`ai_interview/<room>/<default>_transcript.txt` for any default token —
the lengths cannot match. -/
theorem transcript_key_default_shape_false :
    ¬ ∃ d : String, transcriptKey "room1" none =
      "ai_interview/" ++ "room1" ++ "/" ++ d ++ "_transcript.txt" := by
  rintro ⟨d, hd⟩
  have h := congrArg String.length hd
  rw [show (transcriptKey "room1" none).length = 33 from rfl] at h
  simp only [String.length_append] at h
  rw [show ("ai_interview/" : String).length = 13 from rfl,
    show ("room1" : String).length = 5 from rfl,
    show ("/" : String).length = 1 from rfl,
    show ("_transcript.txt" : String).length = 15 from rfl] at h
  omega

/-- C9 (amended): the upload key is
`ai_interview/<interview_id>/<egress_id>_transcript.txt` when a recording id
is known, and `ai_interview/<interview_id>/transcript.txt` (no underscore,
no default token) when it is not. -/
theorem transcript_key_convention (interview_id e : String) :
    transcriptKey interview_id (some e) =
      "ai_interview/" ++ interview_id ++ "/" ++ e ++ "_transcript.txt" ∧
    transcriptKey interview_id none =
      "ai_interview/" ++ interview_id ++ "/" ++ "transcript.txt" := by
  constructor
  · simp [transcriptKey, String.append_assoc]
  · simp [transcriptKey]

/-- One formatted transcript line as built by `save_formatted_transcript`
(transcription_handler.py lines 113-115): label `Interviewer` exactly for
the `AI_Interviewer` speaker, `Candidate` for every other speaker. -/
def lineOf (e : Entry) : String :=
  "[" ++ (if e.speaker = "AI_Interviewer" then "Interviewer" else "Candidate")
    ++ "]: " ++ e.text

/-- All formatted lines, in transcript order. -/
def formatLines (t : List Entry) : List String := t.map lineOf

/-- The uploaded transcript body: lines joined by blank lines
(`"\n\n".join(lines)`, transcription_handler.py line 117). -/
def formattedContent (t : List Entry) : String :=
  String.intercalate "\n\n" (formatLines t)

/-- C10: the three-way speaker attribution collapses to two output labels —
`AI_Interviewer` entries render as `[Interviewer]: ...` and every other
speaker, including the `"unknown"` speaker that `on_transcript` assigns to
participant-less events, renders as `[Candidate]: ...`. -/
theorem format_speaker_labels (e : Entry) (ev : Event) (now : Nat)
    (tx : String) :
    (e.speaker = "AI_Interviewer" → lineOf e = "[Interviewer]: " ++ e.text) ∧
    (e.speaker ≠ "AI_Interviewer" → lineOf e = "[Candidate]: " ++ e.text) ∧
    (ev.participant = none → ev.is_final = some true → ev.text = some tx →
      isBlank tx = false →
      on_transcript ev now [] = .ok [⟨now, "unknown", tx⟩] ∧
      lineOf ⟨now, "unknown", tx⟩ = "[Candidate]: " ++ tx) := by
  refine ⟨fun h => ?_, fun h => ?_, fun hp hf htx hb => ⟨?_, ?_⟩⟩
  · simp [lineOf, h]
  · simp [lineOf, h]
  · simp [on_transcript, on_transcript_body, record, hp, hf, htx, hb]
  · simp [lineOf]

/-- C10 witness: concrete interviewer, candidate and participant-less
events land under the two labels. -/
theorem format_speaker_labels_spot :
    lineOf ⟨0, "AI_Interviewer", "hello"⟩ = "[Interviewer]: " ++ "hello" ∧
    lineOf ⟨1, "cand-7", "yes"⟩ = "[Candidate]: " ++ "yes" ∧
    (on_transcript ⟨none, some "mystery", some true⟩ 7 [] =
        .ok [⟨7, "unknown", "mystery"⟩] ∧
      lineOf ⟨7, "unknown", "mystery"⟩ = "[Candidate]: " ++ "mystery") :=
  ⟨(format_speaker_labels ⟨0, "AI_Interviewer", "hello"⟩ ⟨none, none, none⟩ 0
      "").1 rfl,
   (format_speaker_labels ⟨1, "cand-7", "yes"⟩ ⟨none, none, none⟩ 0 "").2.1
     (by decide),
   (format_speaker_labels ⟨0, "x", "y"⟩ ⟨none, some "mystery", some true⟩ 7
      "mystery").2.2 rfl rfl rfl (by decide)⟩

/-- Feed a list of transcription events through `on_transcript` in order,
with a ticking clock, starting from an empty transcript (the handler's
initial state). -/
def runEvents (evs : List Event) : List Entry :=
  (evs.foldl
    (fun (st : Nat × List Entry) ev =>
      (st.1 + 1,
       match on_transcript ev st.1 st.2 with
       | .ok r => r
       | .error _ => st.2))
    (0, [])).2

/-- End-to-end scenario 1's event stream: the candidate sends three final
utterances interleaved with two interim (non-final) ones. -/
def c5Events : List Event :=
  [⟨some ⟨some "cand-7"⟩, some "I started in backend work", some true⟩,
   ⟨some ⟨some "cand-7"⟩, some "interim mumble one", some false⟩,
   ⟨some ⟨some "cand-7"⟩, some "then moved to infra", some true⟩,
   ⟨some ⟨some "cand-7"⟩, some "interim mumble two", some false⟩,
   ⟨some ⟨some "cand-7"⟩, some "and now I lead a team", some true⟩]

/-- C5 counterexample: the formatted transcript of scenario 1 does NOT have
three entry lines — the three consecutive same-speaker final utterances are
coalesced. -/
theorem c5_not_three_lines :
    ¬ ((formatLines (runEvents c5Events)).length = 3) := by
  decide

/-- C5 (amended): scenario 1 yields exactly one formatted line — the three
final utterances coalesced into a single candidate entry with space-joined
text — and none of the interim text appears in the uploaded content. -/
theorem c5_single_coalesced_line :
    (formatLines (runEvents c5Events)).length = 1 ∧
    formattedContent (runEvents c5Events) =
      "[Candidate]: I started in backend work then moved to infra and now I lead a team" := by
  constructor
  · decide
  · decide

end Interview
